import Mathlib

/-!
Shallow embedding of the BIG-IP extension package operation clients of the
f5-sdk-python repository: the current client
(`src/f5sdk/bigip/extension/package/operation.py`, class `OperationClient`)
and the legacy client
(`src/f5cloudsdk/bigip/toolchain/package/__init__.py`, class `Operation`).

The embedding models the chunked RPM upload (`_upload_rpm`), the bounded
task-status polling loop (`_check_rpm_task_status`), the uninstall
dependency check (`_check_for_dependency`, `uninstall`), the installed-state
query (`_check_rpm_exists`, `is_installed`) and the version extraction from a
package name (`_get_version_number_from_package_name`, including the exact
Python `re.search` semantics of the pattern `[0-9]+.[0-9]+.[0-9]+`, whose
dots are unescaped and therefore match any character).

HTTP transport (`client.make_request`) and the metadata client are external
collaborators: they are parameters of the embedded operations.  A sequence of
poll responses is modelled as a function `Nat → TaskResponse` giving the
decoded JSON of the i-th status request.  Python exceptions are modelled as
an `Except` error channel, with raised exceptions classified by raise site.
-/

namespace F5

/-- A Python exception raised by the package-operation code, classified by
raise site: `taskFailed msg` is the `Exception(response['errorMessage'])`
raised on a FAILED task status, `taskTimeout` is the
`Exception('Max count exceeded')` raised when the poll counter passes its
bound, `attributeError` is the `AttributeError` raised by calling
`.warning` or `.start()` on `None`, and `transport` stands for an error
raised inside `client.make_request`. -/
inductive PyError where
  | taskFailed (msg : String)
  | taskTimeout
  | attributeError (msg : String)
  | transport (msg : String)
deriving DecidableEq, Repr

/-- One entry of the `queryResponse` list returned by a QUERY task. -/
structure PackageEntry where
  packageName : String
deriving DecidableEq, Repr

/-- The decoded JSON body returned by a GET on
`/mgmt/shared/iapp/package-management-tasks/{taskId}`. -/
structure TaskResponse where
  status : String
  errorMessage : String
  id : String
  queryResponse : List PackageEntry
deriving DecidableEq, Repr

/-- The `while True` polling loop of `_check_rpm_task_status`
(operation.py lines 141-151): request the task status, return the response
on FINISHED, raise on FAILED, raise `Exception('Max count exceeded')` once
`count > 120`, otherwise sleep and poll again with `count + 1`.
`polls i` is the decoded body of the i-th status request. -/
def check_loop (polls : Nat → TaskResponse) (count : Nat) :
    Except PyError TaskResponse :=
  let response := polls count
  if response.status = "FINISHED" then
    .ok response
  else if response.status = "FAILED" then
    .error (.taskFailed response.errorMessage)
  else if h : count > 120 then
    .error .taskTimeout
  else
    check_loop polls (count + 1)
termination_by 121 - count
decreasing_by omega

/-- Embedding of `_check_rpm_task_status` of the current client: run the polling loop
starting from `count = 0` and return the final response body. -/
def check_rpm_task_status (polls : Nat → TaskResponse) :
    Except PyError TaskResponse :=
  check_loop polls 0

/-- A status that keeps the polling loop running: neither FINISHED nor
FAILED (in practice PENDING or RUNNING). -/
def nonTerminal (r : TaskResponse) : Prop :=
  r.status ≠ "FINISHED" ∧ r.status ≠ "FAILED"

instance (r : TaskResponse) : Decidable (nonTerminal r) := by
  unfold nonTerminal; infer_instance

/-- The fixed chunk size `max_chunk = 1024 * 1024` of `_upload_rpm`. -/
def max_chunk : Nat := 1024 * 1024

/-- One chunk-upload request issued by `_upload_rpm` via
`client.make_request(uri, method='POST', headers=headers, body=file_slice,
body_content_type='raw')`.  `startOffset` is the loop's `start_index`,
`endOffset` the loop's `end`, `totalSize` the `file_size`, and `body` the
raw bytes of `file_slice`. -/
structure ChunkRequest where
  uri : String
  startOffset : Nat
  endOffset : Nat
  totalSize : Nat
  body : List Nat
  bodyContentType : String
deriving DecidableEq, Repr

/-- The `Content-Range` header of a chunk request, built by the source as
`'%s-%s/%s' % (start_index, end - 1, file_size)`. -/
def contentRangeHeader (r : ChunkRequest) : String :=
  toString r.startOffset ++ "-" ++ toString (r.endOffset - 1) ++ "/" ++
    toString r.totalSize

/-- The `Content-Length` header of a chunk request, built by the source as
`str(end)`. -/
def contentLengthHeader (r : ChunkRequest) : String :=
  toString r.endOffset

/-- The `Content-Type` header of a chunk request, the constant
`'application/octet-stream'`. -/
def contentTypeHeader (_ : ChunkRequest) : String :=
  "application/octet-stream"

/-- The `while True` loop of `_upload_rpm`: read up to `max_chunk` bytes,
stop when the read is empty, compute `end` (`file_size` for a short final
slice, `start_index + slice_size` otherwise), send the chunk, and advance
`start_index`.  The transport is a parameter; a transport error aborts the
loop, mirroring the propagated `make_request` exception.  The result is the
list of issued requests together with the exception, if one was raised. -/
def upload_loop (transport : ChunkRequest → Except PyError Unit)
    (uri : String) (file_size start_index : Nat) :
    List Nat → List ChunkRequest × Option PyError
  | [] => ([], none)
  | rest@(_ :: _) =>
    let file_slice := rest.take max_chunk
    let slice_size := file_slice.length
    let e := if slice_size < max_chunk then file_size
             else start_index + slice_size
    let req : ChunkRequest :=
      { uri := uri, startOffset := start_index, endOffset := e,
        totalSize := file_size, body := file_slice, bodyContentType := "raw" }
    match transport req with
    | .error err => ([req], some err)
    | .ok _ =>
      let next := upload_loop transport uri file_size
        (start_index + slice_size) (rest.drop max_chunk)
      (req :: next.1, next.2)
termination_by rest => rest.length
decreasing_by
  rename_i hd tl h
  subst h
  simp [List.length_drop, max_chunk]
  omega

/-- The full sequence of chunk requests `_upload_rpm` issues for a file
when every request succeeds (the same loop as `upload_loop`, with the
transport stripped out). -/
def chunk_requests (uri : String) (file_size start_index : Nat) :
    List Nat → List ChunkRequest
  | [] => []
  | rest@(_ :: _) =>
    let file_slice := rest.take max_chunk
    let slice_size := file_slice.length
    let e := if slice_size < max_chunk then file_size
             else start_index + slice_size
    { uri := uri, startOffset := start_index, endOffset := e,
      totalSize := file_size, body := file_slice,
      bodyContentType := "raw" } ::
      chunk_requests uri file_size (start_index + slice_size)
        (rest.drop max_chunk)
termination_by rest => rest.length
decreasing_by
  rename_i hd tl h
  subst h
  simp [List.length_drop, max_chunk]
  omega

/-- The upload URI `'/mgmt/shared/file-transfer/uploads/%s' %
(file_name.split('/')[-1])`. -/
def upload_uri (file_name : String) : String :=
  "/mgmt/shared/file-transfer/uploads/" ++
    (file_name.splitOn "/").getLastD ""

/-- The observable outcome of one `_upload_rpm` call: the chunk requests
that were issued, the exception that escaped (if any), and whether
`os.remove(file_name)` ran. -/
structure UploadResult where
  requests : List ChunkRequest
  error : Option PyError
  removed : Bool
deriving Repr

/-- Embedding of `_upload_rpm(file_name, delete_file=...)`: compute the upload URI from
the file's base name, run the chunk loop over the file's bytes, and on
normal loop exit delete the local file when `delete_file` is set.  A raised
transport error propagates, skipping the delete. -/
def upload_rpm (transport : ChunkRequest → Except PyError Unit)
    (file_name : String) (file : List Nat) (delete_file : Bool) :
    UploadResult :=
  let uri := upload_uri file_name
  let file_size := file.length
  let res := upload_loop transport uri file_size 0 file
  match res.2 with
  | some e => { requests := res.1, error := some e, removed := false }
  | none => { requests := res.1, error := none, removed := delete_file }

/-- The byte range `[startOffset, endOffset)` of a chunk request. -/
def range_pair (r : ChunkRequest) : Nat × Nat :=
  (r.startOffset, r.endOffset)

/-- The first chunk request the upload loop issues for a non-empty
remainder `rest` starting at offset `i`. -/
def head_request (uri : String) (file_size start_index : Nat)
    (rest : List Nat) : ChunkRequest :=
  { uri := uri, startOffset := start_index,
    endOffset := if (rest.take max_chunk).length < max_chunk then file_size
                 else start_index + (rest.take max_chunk).length,
    totalSize := file_size, body := rest.take max_chunk,
    bodyContentType := "raw" }

/-- Predicate `Tiles l lo hi`: the byte ranges in `l`, in order, exactly partition
`[lo, hi)` with no gaps and no overlaps: each range starts where the
previous one ended, each range is non-empty, and the last one ends at
`hi`. -/
def Tiles : List (Nat × Nat) → Nat → Nat → Prop
  | [], lo, hi => lo = hi
  | p :: rest, lo, hi => p.1 = lo ∧ lo < p.2 ∧ Tiles rest p.2 hi

/-- The start and end offsets of the chunk requests as a function of the
file size alone (`n` is the number of bytes not yet uploaded): the
length-level image of the upload loop, used to evaluate the request
sequence at large concrete sizes. -/
def chunk_ranges (file_size start_index n : Nat) : List (Nat × Nat) :=
  if h : n = 0 then []
  else
    (start_index,
      if min max_chunk n < max_chunk then file_size
      else start_index + min max_chunk n) ::
      chunk_ranges file_size (start_index + min max_chunk n)
        (n - min max_chunk n)
termination_by n
decreasing_by
  have hpos : 0 < min max_chunk n := by
    have : 0 < max_chunk := by norm_num [max_chunk]
    omega
  omega

/-- Number of leading decimal digits of `s`: the length of the longest
prefix matched by `[0-9]+`. -/
def leadingDigits : List Char → Nat
  | [] => 0
  | c :: cs => if c.isDigit then leadingDigits cs + 1 else 0

/-- Backtracking search for `[0-9]+` followed by the continuation `cont`:
try a digit prefix of length `k`, longest first, shortening until the
continuation matches — Python's greedy matching order.  Returns the total
number of characters matched. -/
def tryDigits (cont : List Char → Option Nat) (s : List Char) :
    Nat → Option Nat
  | 0 => none
  | k + 1 =>
    match cont (s.drop (k + 1)) with
    | some m => some (k + 1 + m)
    | none => tryDigits cont s k

/-- Match `[0-9]+` (greedy, with backtracking) and then `cont`. -/
def matchDigitsThen (cont : List Char → Option Nat) (s : List Char) :
    Option Nat :=
  tryDigits cont s (leadingDigits s)

/-- Match `.` in a pattern whose dot is unescaped — any single
character — and then `cont`. -/
def matchAnyThen (cont : List Char → Option Nat) : List Char → Option Nat
  | [] => none
  | _ :: s2 => (cont s2).map (fun m => m + 1)

/-- Match of the full pattern `[0-9]+.[0-9]+.[0-9]+` anchored at the start
of `s`, in Python's greedy backtracking order.  The dots of the source
pattern are unescaped, so they match any character. -/
def matchVersionAt : List Char → Option Nat :=
  matchDigitsThen (matchAnyThen (matchDigitsThen (matchAnyThen
    (matchDigitsThen (fun _ => some 0)))))

/-- Embedding of `re.search` of the version pattern: the match at the leftmost position
where one exists, as `(start, length)`. -/
def searchVersion : List Char → Option (Nat × Nat)
  | [] => none
  | s@(_ :: rest) =>
    match matchVersionAt s with
    | some len => some (0, len)
    | none => (searchVersion rest).map (fun p => (p.1 + 1, p.2))

/-- Embedding of `_get_version_number_from_package_name`: `re.search` the compiled
pattern in the package name and return
`package_name[version_index.start():version_index.end()]`.  When the
search finds nothing it returns `None`, and `version_index.start()`
raises `AttributeError`. -/
def get_version_number_from_package_name (package_name : String) :
    Except PyError String :=
  match searchVersion package_name.data with
  | none => .error (.attributeError
      "NoneType object has no attribute start")
  | some p => .ok ⟨(package_name.data.drop p.1).take p.2⟩

/-- Helper for `pyIn`: `needle` is a prefix of `hay`. -/
def isPrefixOfL : List Char → List Char → Bool
  | [], _ => true
  | _ :: _, [] => false
  | a :: as, b :: bs => a == b && isPrefixOfL as bs

/-- Helper for `pyIn`: `needle` occurs at some position of `hay`. -/
def containsAt : List Char → List Char → Bool
  | needle, [] => needle.isEmpty
  | needle, hay@(_ :: rest) =>
    isPrefixOfL needle hay || containsAt needle rest

/-- Python's `in` operator on strings, as used in
`component_package_name in i['packageName']`: `needle` occurs as a
contiguous substring of `hay`. -/
def pyIn (needle hay : String) : Bool :=
  containsAt needle.data hay.data

/-- The result dictionary of `is_installed`. -/
structure VersionData where
  installed : Bool
  installed_version : String
  latest_version : String
deriving DecidableEq, Repr

/-- Embedding of `_check_rpm_exists`: submit a QUERY task, poll it to completion,
filter the `queryResponse` entries whose `packageName` contains
`component_package_name`, and return the version extracted from the single
match, or `''` when there are zero or several matches (the
`if len(matching_packages) == 1` conditional, rendered as a match on the
one-element list pattern). -/
def check_rpm_exists (component_package_name : String)
    (polls : Nat → TaskResponse) : Except PyError String := do
  let response ← check_rpm_task_status polls
  let query_response := response.queryResponse
  let matching_packages := query_response.filter
    (fun i => pyIn component_package_name i.packageName)
  match matching_packages with
  | [p] => get_version_number_from_package_name p.packageName
  | _ => .ok ""

/-- Embedding of `is_installed`: look up the component's package-name substring and the
latest version through the metadata client (its two answers are passed as
parameters), query the device, and report installed state, installed
version and latest version. -/
def is_installed (component_package_name latest_version : String)
    (polls : Nat → TaskResponse) : Except PyError VersionData := do
  let retrieve_rpm_version ← check_rpm_exists component_package_name polls
  .ok { installed := retrieve_rpm_version != "",
        installed_version := retrieve_rpm_version,
        latest_version := latest_version }

/-- One version constraint of a dependency record: a version string and a
comparison operator (e.g. `'>='`). -/
structure VersionConstraint where
  version : String
  operation : String
deriving DecidableEq, Repr

/-- One dependency record returned by
`metadata_client.get_component_dependencies()`. -/
structure DependencyInfo where
  versions : List VersionConstraint
  uninstallDocumentation : String
deriving DecidableEq, Repr

/-- The warning message `_check_for_dependency` logs. -/
def dependency_warning (name : String) (dependency : DependencyInfo) :
    String :=
  "A component package dependency has not been removed: " ++ name ++
    " See documentation for more details: " ++
    dependency.uninstallDocumentation

/-- Embedding of `_check_for_dependency`: for each dependent component, filter its
constraints through `misc_utils.compare_versions(self.version,
i['version'], i['operation'])` — that utility lives outside the packaged
sources, so it is a parameter here — and when every constraint matches,
log a warning through `self.logger`.  When the client was constructed
without a logger, `self.logger` is `None` and `.warning` raises
`AttributeError`.  Returns the list of logged warning messages. -/
def check_for_dependency (logger : Option Unit)
    (compare_versions : String → String → String → Bool)
    (version : String) :
    List (String × DependencyInfo) → Except PyError (List String)
  | [] => .ok []
  | (name, dependency) :: rest =>
    let versions := dependency.versions
    let matched := versions.filter
      (fun i => compare_versions version i.version i.operation)
    if matched.length = versions.length then
      match logger with
      | none => .error (.attributeError
          "NoneType object has no attribute warning")
      | some _ =>
        (check_for_dependency logger compare_versions version rest).map
          (fun ws => dependency_warning name dependency :: ws)
    else check_for_dependency logger compare_versions version rest

/-- The result dictionary of `install`/`uninstall`:
`{'component': ..., 'version': ...}`. -/
structure ComponentVersion where
  component : String
  version : String
deriving DecidableEq, Repr

/-- Embedding of `uninstall`: resolve the package name through the metadata client,
submit the UNINSTALL task and poll it to completion (`_uninstall_rpm`,
whose poll responses are `polls`), run the dependency check, and return
`{'component': ..., 'version': ...}`.  The embedding also returns the list
of warnings the dependency check logged. -/
def uninstall (logger : Option Unit)
    (compare_versions : String → String → String → Bool)
    (component version : String)
    (dependencies : List (String × DependencyInfo))
    (polls : Nat → TaskResponse) :
    Except PyError (ComponentVersion × List String) := do
  let _ ← check_rpm_task_status polls
  let warnings ← check_for_dependency logger compare_versions version
    dependencies
  .ok ({ component := component, version := version }, warnings)

/-- A Python value as returned by the two `_check_rpm_task_status`
implementations: the legacy client returns a status string, the current
client returns the whole response dictionary. -/
inductive PyValue where
  | str (s : String)
  | dict (r : TaskResponse)
deriving DecidableEq, Repr

/-- A continuation that never claims to match more characters than its
input has. -/
def ConservesLen (cont : List Char → Option Nat) : Prop :=
  ∀ t m, cont t = some m → m ≤ t.length

/-- Transport that rejects every request, used as a witness input. -/
def failing_transport : ChunkRequest → Except PyError Unit :=
  fun _ => .error (.transport "connection reset")

/-- Transport that accepts every request, used as a witness input. -/
def ok_transport : ChunkRequest → Except PyError Unit :=
  fun _ => .ok ()

/-- A RUNNING poll response, used as a concrete input. -/
def running_resp : TaskResponse :=
  { status := "RUNNING", errorMessage := "", id := "t1",
    queryResponse := [] }

/-- A FINISHED poll response, used as a concrete input. -/
def finished_resp : TaskResponse :=
  { status := "FINISHED", errorMessage := "", id := "t1",
    queryResponse := [] }

/-- A poll sequence that stays RUNNING for the first 121 polls and turns
FINISHED on the 122nd (index 121). -/
def late_polls : Nat → TaskResponse :=
  fun i => if i < 121 then running_resp else finished_resp

/-- A QUERY response whose package list has exactly one entry matching
`f5-appsvcs`, with a well-formed embedded version. -/
def appsvcs_resp : TaskResponse :=
  { status := "FINISHED", errorMessage := "", id := "q1",
    queryResponse := [{ packageName := "f5-appsvcs-3.18.0-4.noarch" }] }

/-- A QUERY response whose single matching package name contains no
version-shaped substring. -/
def noversion_resp : TaskResponse :=
  { status := "FINISHED", errorMessage := "", id := "q2",
    queryResponse := [{ packageName := "f5-noversion.rpm" }] }

/-- A FINISHED response carrying a non-trivial payload, used to separate
the two pollers' return values. -/
def payload_resp : TaskResponse :=
  { status := "FINISHED", errorMessage := "", id := "t9",
    queryResponse := [{ packageName := "f5-appsvcs-3.18.0-4.noarch" }] }

/-- A comparison function that accepts every constraint, used as a witness
input for the dependency check. -/
def accept_all_compare : String → String → String → Bool :=
  fun _ _ _ => true

/-- A one-dependent dependency table, used as a witness input. -/
def as3_dependencies : List (String × DependencyInfo) :=
  [("as3", { versions := [{ version := "1.0.0", operation := ">=" }],
             uninstallDocumentation := "https://example.invalid/uninstall" })]

namespace Legacy

/-- The polling loop of the legacy `Operation._check_rpm_task_status`
(`__init__.py` lines 90-106): same loop as the current client, but the
function returns `status_response['status']` instead of the full
response. -/
def check_loop (polls : Nat → TaskResponse) (count : Nat) :
    Except PyError String :=
  let status_response := polls count
  if status_response.status = "FINISHED" then
    .ok status_response.status
  else if status_response.status = "FAILED" then
    .error (.taskFailed status_response.errorMessage)
  else if h : count > 120 then
    .error .taskTimeout
  else
    check_loop polls (count + 1)
termination_by 121 - count
decreasing_by omega

/-- The legacy `_check_rpm_task_status`. -/
def check_rpm_task_status (polls : Nat → TaskResponse) :
    Except PyError String :=
  check_loop polls 0

/-- The `while True` upload loop of the legacy `Operation._upload_rpm`
(`__init__.py` lines 51-88), whose body is token-for-token the body of the
current client's loop. -/
def upload_loop (transport : ChunkRequest → Except PyError Unit)
    (uri : String) (file_size start_index : Nat) :
    List Nat → List ChunkRequest × Option PyError
  | [] => ([], none)
  | rest@(_ :: _) =>
    let file_slice := rest.take max_chunk
    let slice_size := file_slice.length
    let e := if slice_size < max_chunk then file_size
             else start_index + slice_size
    let req : ChunkRequest :=
      { uri := uri, startOffset := start_index, endOffset := e,
        totalSize := file_size, body := file_slice, bodyContentType := "raw" }
    match transport req with
    | .error err => ([req], some err)
    | .ok _ =>
      let next := upload_loop transport uri file_size
        (start_index + slice_size) (rest.drop max_chunk)
      (req :: next.1, next.2)
termination_by rest => rest.length
decreasing_by
  rename_i hd tl h
  subst h
  simp [List.length_drop, max_chunk]
  omega

/-- The legacy `_upload_rpm`. -/
def upload_rpm (transport : ChunkRequest → Except PyError Unit)
    (file_name : String) (file : List Nat) (delete_file : Bool) :
    UploadResult :=
  let uri := upload_uri file_name
  let file_size := file.length
  let res := upload_loop transport uri file_size 0 file
  match res.2 with
  | some e => { requests := res.1, error := some e, removed := false }
  | none => { requests := res.1, error := none, removed := delete_file }

end Legacy

theorem check_loop_unfold (polls : Nat → TaskResponse) (count : Nat) :
    check_loop polls count =
      if (polls count).status = "FINISHED" then
        .ok (polls count)
      else if (polls count).status = "FAILED" then
        .error (.taskFailed (polls count).errorMessage)
      else if count > 120 then
        .error .taskTimeout
      else
        check_loop polls (count + 1) := by
  rw [check_loop]
  simp only [dite_eq_ite]

theorem check_loop_of_finished (polls : Nat → TaskResponse) (i : Nat) :
    ∀ n count, i - count = n → count ≤ i → i ≤ 121 →
      (polls i).status = "FINISHED" →
      (∀ j, count ≤ j → j < i → nonTerminal (polls j)) →
      check_loop polls count = .ok (polls i) := by
  intro n
  induction n with
  | zero =>
    intro count hd hci hi hfin hpre
    have hc : count = i := by omega
    subst hc
    rw [check_loop_unfold, if_pos hfin]
  | succ n ih =>
    intro count hd hci hi hfin hpre
    have hlt : count < i := by omega
    have hnt : nonTerminal (polls count) := hpre count le_rfl hlt
    rw [check_loop_unfold, if_neg hnt.1, if_neg hnt.2,
      if_neg (by omega : ¬ count > 120)]
    exact ih (count + 1) (by omega) (by omega) hi hfin
      (fun j hj hji => hpre j (by omega) hji)

theorem check_loop_of_failed (polls : Nat → TaskResponse) (i : Nat) :
    ∀ n count, i - count = n → count ≤ i → i ≤ 121 →
      (polls i).status = "FAILED" →
      (∀ j, count ≤ j → j < i → nonTerminal (polls j)) →
      check_loop polls count = .error (.taskFailed (polls i).errorMessage) := by
  intro n
  induction n with
  | zero =>
    intro count hd hci hi hfail hpre
    have hc : count = i := by omega
    subst hc
    have hne : (polls count).status ≠ "FINISHED" := by
      rw [hfail]; decide
    rw [check_loop_unfold, if_neg hne, if_pos hfail]
  | succ n ih =>
    intro count hd hci hi hfail hpre
    have hlt : count < i := by omega
    have hnt : nonTerminal (polls count) := hpre count le_rfl hlt
    rw [check_loop_unfold, if_neg hnt.1, if_neg hnt.2,
      if_neg (by omega : ¬ count > 120)]
    exact ih (count + 1) (by omega) (by omega) hi hfail
      (fun j hj hji => hpre j (by omega) hji)

theorem check_loop_of_all_nonterminal (polls : Nat → TaskResponse) :
    ∀ n count, 121 - count = n → count ≤ 121 →
      (∀ i, count ≤ i → i ≤ 121 → nonTerminal (polls i)) →
      check_loop polls count = .error .taskTimeout := by
  intro n
  induction n with
  | zero =>
    intro count hd hc h
    have hc121 : count = 121 := by omega
    subst hc121
    have hnt := h 121 le_rfl le_rfl
    rw [check_loop_unfold, if_neg hnt.1, if_neg hnt.2, if_pos (by omega)]
  | succ n ih =>
    intro count hd hc h
    have hnt := h count le_rfl hc
    rw [check_loop_unfold, if_neg hnt.1, if_neg hnt.2,
      if_neg (by omega : ¬ count > 120)]
    exact ih (count + 1) (by omega) (by omega) (fun i hi => h i (by omega))

/-- A status string is terminal when it is FINISHED or FAILED. -/
theorem not_nonTerminal_iff (r : TaskResponse) :
    ¬ nonTerminal r ↔ r.status = "FINISHED" ∨ r.status = "FAILED" := by
  unfold nonTerminal
  constructor
  · intro h
    by_cases hf : r.status = "FINISHED"
    · exact Or.inl hf
    · right
      by_contra hf2
      exact h ⟨hf, hf2⟩
  · rintro (h | h) ⟨h1, h2⟩ <;> [exact h1 h; exact h2 h]

theorem check_rpm_task_status_ok_iff (polls : Nat → TaskResponse)
    (r : TaskResponse) :
    check_rpm_task_status polls = .ok r ↔
      ∃ i, i ≤ 121 ∧ (polls i).status = "FINISHED" ∧ r = polls i ∧
        ∀ j, j < i → nonTerminal (polls j) := by
  constructor
  · intro h
    by_cases hex : ∃ i, i ≤ 121 ∧ ¬ nonTerminal (polls i)
    · set i0 := Nat.find hex with hi0
      obtain ⟨hle, hterm⟩ := Nat.find_spec hex
      have hpre : ∀ j, j < i0 → nonTerminal (polls j) := by
        intro j hj
        have := Nat.find_min hex hj
        by_contra hcon
        exact this ⟨by omega, hcon⟩
      rcases (not_nonTerminal_iff _).1 hterm with hfin | hfail
      · have hrun := check_loop_of_finished polls i0 i0 0 rfl (Nat.zero_le _) hle hfin
          (fun j _ hji => hpre j hji)
        rw [check_rpm_task_status, hrun] at h
        exact ⟨i0, hle, hfin, (Except.ok.inj h).symm, hpre⟩
      · have hrun := check_loop_of_failed polls i0 i0 0 rfl (Nat.zero_le _) hle hfail
          (fun j _ hji => hpre j hji)
        rw [check_rpm_task_status, hrun] at h
        exact absurd h (by simp)
    · push_neg at hex
      have hrun := check_loop_of_all_nonterminal polls 121 0 rfl (by omega)
        (fun i _ hi => hex i hi)
      rw [check_rpm_task_status, hrun] at h
      exact absurd h (by simp)
  · rintro ⟨i, hi, hfin, rfl, hpre⟩
    exact check_loop_of_finished polls i i 0 rfl (Nat.zero_le _) hi hfin
      (fun j _ hji => hpre j hji)

theorem check_rpm_task_status_failed_iff (polls : Nat → TaskResponse)
    (msg : String) :
    check_rpm_task_status polls = .error (.taskFailed msg) ↔
      ∃ i, i ≤ 121 ∧ (polls i).status = "FAILED" ∧
        msg = (polls i).errorMessage ∧ ∀ j, j < i → nonTerminal (polls j) := by
  constructor
  · intro h
    by_cases hex : ∃ i, i ≤ 121 ∧ ¬ nonTerminal (polls i)
    · set i0 := Nat.find hex with hi0
      obtain ⟨hle, hterm⟩ := Nat.find_spec hex
      have hpre : ∀ j, j < i0 → nonTerminal (polls j) := by
        intro j hj
        have := Nat.find_min hex hj
        by_contra hcon
        exact this ⟨by omega, hcon⟩
      rcases (not_nonTerminal_iff _).1 hterm with hfin | hfail
      · have hrun := check_loop_of_finished polls i0 i0 0 rfl (Nat.zero_le _) hle hfin
          (fun j _ hji => hpre j hji)
        rw [check_rpm_task_status, hrun] at h
        exact absurd h (by simp)
      · have hrun := check_loop_of_failed polls i0 i0 0 rfl (Nat.zero_le _) hle hfail
          (fun j _ hji => hpre j hji)
        rw [check_rpm_task_status, hrun] at h
        exact ⟨i0, hle, hfail,
          (PyError.taskFailed.inj (Except.error.inj h)).symm, hpre⟩
    · push_neg at hex
      have hrun := check_loop_of_all_nonterminal polls 121 0 rfl (by omega)
        (fun i _ hi => hex i hi)
      rw [check_rpm_task_status, hrun] at h
      simp at h
  · rintro ⟨i, hi, hfail, rfl, hpre⟩
    exact check_loop_of_failed polls i i 0 rfl (Nat.zero_le _) hi hfail
      (fun j _ hji => hpre j hji)

theorem check_rpm_task_status_timeout_iff (polls : Nat → TaskResponse) :
    check_rpm_task_status polls = .error .taskTimeout ↔
      ∀ i, i ≤ 121 → nonTerminal (polls i) := by
  constructor
  · intro h
    by_contra hcon
    push_neg at hcon
    obtain ⟨i, hi, hterm⟩ := hcon
    have hex : ∃ i, i ≤ 121 ∧ ¬ nonTerminal (polls i) := ⟨i, hi, hterm⟩
    set i0 := Nat.find hex with hi0
    obtain ⟨hle, hterm0⟩ := Nat.find_spec hex
    have hpre : ∀ j, j < i0 → nonTerminal (polls j) := by
      intro j hj
      have := Nat.find_min hex hj
      by_contra hcon2
      exact this ⟨by omega, hcon2⟩
    rcases (not_nonTerminal_iff _).1 hterm0 with hfin | hfail
    · have hrun := check_loop_of_finished polls i0 i0 0 rfl (Nat.zero_le _) hle hfin
        (fun j _ hji => hpre j hji)
      rw [check_rpm_task_status, hrun] at h
      simp at h
    · have hrun := check_loop_of_failed polls i0 i0 0 rfl (Nat.zero_le _) hle hfail
        (fun j _ hji => hpre j hji)
      rw [check_rpm_task_status, hrun] at h
      simp at h
  · intro h
    exact check_loop_of_all_nonterminal polls 121 0 rfl (by omega) (fun i _ hi => h i hi)

theorem chunk_requests_nil (uri : String) (S i : Nat) :
    chunk_requests uri S i [] = [] := by
  rw [chunk_requests]

theorem chunk_requests_cons (uri : String) (S i : Nat) (a : Nat)
    (l : List Nat) :
    chunk_requests uri S i (a :: l) =
      head_request uri S i (a :: l) ::
        chunk_requests uri S (i + ((a :: l).take max_chunk).length)
          ((a :: l).drop max_chunk) := by
  rw [chunk_requests, head_request]

theorem upload_loop_nil (transport : ChunkRequest → Except PyError Unit)
    (uri : String) (S i : Nat) :
    upload_loop transport uri S i [] = ([], none) := by
  rw [upload_loop]

theorem upload_loop_cons (transport : ChunkRequest → Except PyError Unit)
    (uri : String) (S i : Nat) (a : Nat) (l : List Nat) :
    upload_loop transport uri S i (a :: l) =
      match transport (head_request uri S i (a :: l)) with
      | .error err => ([head_request uri S i (a :: l)], some err)
      | .ok _ =>
        (head_request uri S i (a :: l) ::
            (upload_loop transport uri S (i + ((a :: l).take max_chunk).length)
              ((a :: l).drop max_chunk)).1,
          (upload_loop transport uri S (i + ((a :: l).take max_chunk).length)
            ((a :: l).drop max_chunk)).2) := by
  rw [upload_loop, head_request]

theorem upload_loop_cons_error (transport : ChunkRequest → Except PyError Unit)
    (uri : String) (S i : Nat) (a : Nat) (l : List Nat) (err : PyError)
    (htr : transport (head_request uri S i (a :: l)) = .error err) :
    upload_loop transport uri S i (a :: l) =
      ([head_request uri S i (a :: l)], some err) := by
  rw [upload_loop_cons, htr]

theorem upload_loop_cons_ok (transport : ChunkRequest → Except PyError Unit)
    (uri : String) (S i : Nat) (a : Nat) (l : List Nat)
    (htr : transport (head_request uri S i (a :: l)) = .ok ()) :
    upload_loop transport uri S i (a :: l) =
      (head_request uri S i (a :: l) ::
          (upload_loop transport uri S (i + ((a :: l).take max_chunk).length)
            ((a :: l).drop max_chunk)).1,
        (upload_loop transport uri S (i + ((a :: l).take max_chunk).length)
          ((a :: l).drop max_chunk)).2) := by
  rw [upload_loop_cons, htr]

theorem drop_chunk_length_le {a n : Nat} {l : List Nat}
    (h : (a :: l).length ≤ n + 1) : ((a :: l).drop max_chunk).length ≤ n := by
  simp [List.length_drop, max_chunk] at *
  omega

/-- If the transport accepts every request of the full chunk sequence, the
upload loop issues exactly that sequence and raises nothing. -/
theorem upload_loop_of_all_ok
    (transport : ChunkRequest → Except PyError Unit) (uri : String)
    (S : Nat) :
    ∀ n (rest : List Nat), rest.length ≤ n → ∀ i,
      (∀ r ∈ chunk_requests uri S i rest, transport r = .ok ()) →
      upload_loop transport uri S i rest =
        (chunk_requests uri S i rest, none) := by
  intro n
  induction n with
  | zero =>
    intro rest hlen i h
    have hnil : rest = [] := List.eq_nil_of_length_eq_zero (by omega)
    subst hnil
    rw [upload_loop_nil, chunk_requests_nil]
  | succ n ih =>
    intro rest hlen i h
    cases rest with
    | nil => rw [upload_loop_nil, chunk_requests_nil]
    | cons a l =>
      rw [chunk_requests_cons] at h
      have hhead := h _ (List.mem_cons_self _ _)
      have hrec := ih ((a :: l).drop max_chunk) (drop_chunk_length_le hlen) _
        (fun r hr => h r (List.mem_cons_of_mem _ hr))
      rw [upload_loop_cons_ok transport uri S i a l hhead, hrec,
        chunk_requests_cons]

/-- If the upload loop raised no exception, every request of the full chunk
sequence was accepted, and the issued requests are that full sequence. -/
theorem upload_loop_none_iff
    (transport : ChunkRequest → Except PyError Unit) (uri : String)
    (S : Nat) :
    ∀ n (rest : List Nat), rest.length ≤ n → ∀ i,
      (upload_loop transport uri S i rest).2 = none ↔
        ∀ r ∈ chunk_requests uri S i rest, transport r = .ok () := by
  intro n
  induction n with
  | zero =>
    intro rest hlen i
    have hnil : rest = [] := List.eq_nil_of_length_eq_zero (by omega)
    subst hnil
    rw [upload_loop_nil, chunk_requests_nil]
    simp
  | succ n ih =>
    intro rest hlen i
    cases rest with
    | nil =>
      rw [upload_loop_nil, chunk_requests_nil]
      simp
    | cons a l =>
      constructor
      · intro h2
        rcases htr : transport (head_request uri S i (a :: l)) with err | u
        · rw [upload_loop_cons_error transport uri S i a l err htr] at h2
          simp at h2
        · cases u
          rw [upload_loop_cons_ok transport uri S i a l htr] at h2
          rw [chunk_requests_cons]
          intro r hr
          rcases List.mem_cons.1 hr with hr | hr
          · subst hr
            exact htr
          · exact (ih ((a :: l).drop max_chunk)
              (drop_chunk_length_le hlen) _).1 h2 r hr
      · intro h
        rw [upload_loop_of_all_ok transport uri S (n + 1) (a :: l) hlen i h]

/-- If the upload loop raised an exception, that exception came from the
transport rejecting one of the issued requests. -/
theorem upload_loop_some
    (transport : ChunkRequest → Except PyError Unit) (uri : String)
    (S : Nat) :
    ∀ n (rest : List Nat), rest.length ≤ n → ∀ i e,
      (upload_loop transport uri S i rest).2 = some e →
      ∃ r ∈ (upload_loop transport uri S i rest).1,
        transport r = .error e := by
  intro n
  induction n with
  | zero =>
    intro rest hlen i e h2
    have hnil : rest = [] := List.eq_nil_of_length_eq_zero (by omega)
    subst hnil
    rw [upload_loop_nil] at h2
    simp at h2
  | succ n ih =>
    intro rest hlen i e h2
    cases rest with
    | nil => rw [upload_loop_nil] at h2; simp at h2
    | cons a l =>
      rcases htr : transport (head_request uri S i (a :: l)) with err | u
      · rw [upload_loop_cons_error transport uri S i a l err htr] at h2 ⊢
        simp only [Option.some.injEq] at h2
        subst h2
        exact ⟨_, List.mem_singleton_self _, htr⟩
      · cases u
        rw [upload_loop_cons_ok transport uri S i a l htr] at h2 ⊢
        obtain ⟨r, hr, hrt⟩ := ih ((a :: l).drop max_chunk)
          (drop_chunk_length_le hlen) _ e h2
        exact ⟨r, List.mem_cons_of_mem _ hr, hrt⟩

theorem Tiles_getLast (l : List (Nat × Nat)) :
    ∀ lo hi, Tiles l lo hi → ∀ p, l.getLast? = some p → p.2 = hi := by
  induction l with
  | nil =>
    intro lo hi _ p hp
    simp at hp
  | cons q rest ih =>
    intro lo hi ht p hp
    cases rest with
    | nil =>
      simp at hp
      subst hp
      rcases ht with ⟨_, _, hlast⟩
      exact hlast.symm ▸ rfl
    | cons q2 rest2 =>
      rw [List.getLast?_cons_cons] at hp
      exact ih _ _ ht.2.2 p hp

theorem range_pair_head (uri : String) (S i : Nat) (rest : List Nat) :
    range_pair (head_request uri S i rest) =
      (i, if (rest.take max_chunk).length < max_chunk then S
          else i + (rest.take max_chunk).length) := rfl

theorem chunk_requests_tiles (uri : String) (S : Nat) :
    ∀ n (rest : List Nat), rest.length ≤ n → ∀ i, S = i + rest.length →
      Tiles ((chunk_requests uri S i rest).map range_pair) i S := by
  intro n
  induction n with
  | zero =>
    intro rest hlen i hS
    have hnil : rest = [] := List.eq_nil_of_length_eq_zero (by omega)
    subst hnil
    rw [chunk_requests_nil]
    simp only [List.map_nil, Tiles]
    simp at hS
    omega
  | succ n ih =>
    intro rest hlen i hS
    cases rest with
    | nil =>
      rw [chunk_requests_nil]
      simp only [List.map_nil, Tiles]
      simp at hS
      omega
    | cons a l =>
      rw [chunk_requests_cons]
      simp only [List.map_cons, range_pair_head]
      have hL : (a :: l).length = l.length + 1 := List.length_cons a l
      have ht : ((a :: l).take max_chunk).length =
          min max_chunk (l.length + 1) := by
        rw [List.length_take, hL]
      rw [hL] at hS
      by_cases hc : ((a :: l).take max_chunk).length < max_chunk
      · have hlt : l.length + 1 < max_chunk := by
          rw [ht] at hc
          omega
        have hdrop : (a :: l).drop max_chunk = [] :=
          List.drop_eq_nil_of_le (by rw [hL]; omega)
        rw [hdrop, chunk_requests_nil, if_pos hc]
        refine ⟨rfl, by omega, ?_⟩
        simp only [List.map_nil, Tiles]
      · have hge : max_chunk ≤ l.length + 1 := by
          rw [ht] at hc
          omega
        have hceq : ((a :: l).take max_chunk).length = max_chunk := by
          rw [ht]
          omega
        have hposC : 0 < max_chunk := by norm_num [max_chunk]
        rw [if_neg hc]
        refine ⟨rfl, by omega, ?_⟩
        exact ih ((a :: l).drop max_chunk) (drop_chunk_length_le hlen) _
          (by rw [List.length_drop, hceq, hL]; omega)

/-- Structural facts about every chunk request issued for a file: correct
target URI, total size, raw body content type, the `endOffset` law
`end = min (start + max_chunk) file_size`, a body of exactly
`end - start` bytes, and a non-empty in-bounds range. -/
theorem chunk_requests_mem (uri : String) (S : Nat) :
    ∀ n (rest : List Nat), rest.length ≤ n → ∀ i, S = i + rest.length →
      ∀ r ∈ chunk_requests uri S i rest,
        r.uri = uri ∧ r.totalSize = S ∧ r.bodyContentType = "raw" ∧
        r.endOffset = min (r.startOffset + max_chunk) S ∧
        r.body.length = r.endOffset - r.startOffset ∧
        r.startOffset < r.endOffset ∧ r.endOffset ≤ S := by
  intro n
  induction n with
  | zero =>
    intro rest hlen i hS r hr
    have hnil : rest = [] := List.eq_nil_of_length_eq_zero (by omega)
    subst hnil
    rw [chunk_requests_nil] at hr
    simp at hr
  | succ n ih =>
    intro rest hlen i hS r hr
    cases rest with
    | nil =>
      rw [chunk_requests_nil] at hr
      simp at hr
    | cons a l =>
      rw [chunk_requests_cons] at hr
      have hL : (a :: l).length = l.length + 1 := List.length_cons a l
      have ht : ((a :: l).take max_chunk).length =
          min max_chunk (l.length + 1) := by
        rw [List.length_take, hL]
      rcases List.mem_cons.1 hr with hr | hr
      · subst hr
        rw [hL] at hS
        have hposC : 0 < max_chunk := by norm_num [max_chunk]
        by_cases hc : ((a :: l).take max_chunk).length < max_chunk
        · have hlt : l.length + 1 < max_chunk := by
            rw [ht] at hc
            omega
          simp only [head_request, if_pos hc]
          refine ⟨trivial, trivial, trivial, ?_, ?_, ?_, ?_⟩
          · omega
          · rw [ht]
            omega
          · omega
          · omega
        · have hge : max_chunk ≤ l.length + 1 := by
            rw [ht] at hc
            omega
          have hceq : ((a :: l).take max_chunk).length = max_chunk := by
            rw [ht]
            omega
          have hifn : (if max_chunk < max_chunk then S else i + max_chunk) =
              i + max_chunk := if_neg (lt_irrefl max_chunk)
          simp only [head_request, hceq, hifn]
          refine ⟨trivial, trivial, trivial, ?_, ?_, ?_, ?_⟩
          · omega
          · omega
          · omega
          · omega
      · exact ih ((a :: l).drop max_chunk) (drop_chunk_length_le hlen)
          (i + ((a :: l).take max_chunk).length)
          (by
            rw [List.length_drop, ht, hL]
            rw [hL] at hS
            omega) r hr

/-- The bodies of the issued chunk requests, concatenated in order, are
exactly the bytes of the uploaded file. -/
theorem chunk_requests_flatten (uri : String) (S : Nat) :
    ∀ n (rest : List Nat), rest.length ≤ n → ∀ i,
      ((chunk_requests uri S i rest).map (fun r => r.body)).flatten =
        rest := by
  intro n
  induction n with
  | zero =>
    intro rest hlen i
    have hnil : rest = [] := List.eq_nil_of_length_eq_zero (by omega)
    subst hnil
    rw [chunk_requests_nil]
    simp
  | succ n ih =>
    intro rest hlen i
    cases rest with
    | nil =>
      rw [chunk_requests_nil]
      simp
    | cons a l =>
      rw [chunk_requests_cons]
      simp only [List.map_cons, List.flatten_cons, head_request]
      rw [ih ((a :: l).drop max_chunk) (drop_chunk_length_le hlen) _]
      exact List.take_append_drop max_chunk (a :: l)

/-- The `k`-th chunk request starts at offset `k * max_chunk` past the
loop's starting offset and carries exactly the bytes of the `k`-th
`max_chunk`-sized slice of the remaining file. -/
theorem chunk_requests_get (uri : String) (S : Nat) :
    ∀ n (rest : List Nat), rest.length ≤ n → ∀ i k r,
      (chunk_requests uri S i rest).get? k = some r →
      r.startOffset = i + k * max_chunk ∧
      r.body = (rest.drop (k * max_chunk)).take max_chunk := by
  intro n
  induction n with
  | zero =>
    intro rest hlen i k r hr
    have hnil : rest = [] := List.eq_nil_of_length_eq_zero (by omega)
    subst hnil
    rw [chunk_requests_nil] at hr
    simp at hr
  | succ n ih =>
    intro rest hlen i k r hr
    cases rest with
    | nil =>
      rw [chunk_requests_nil] at hr
      simp at hr
    | cons a l =>
      rw [chunk_requests_cons] at hr
      cases k with
      | zero =>
        simp only [List.get?_cons_zero, Option.some.injEq] at hr
        subst hr
        refine ⟨?_, ?_⟩
        · simp only [head_request]
          omega
        · simp only [head_request, Nat.zero_mul, List.drop_zero]
      | succ k =>
        rw [List.get?_cons_succ] at hr
        have hL : (a :: l).length = l.length + 1 := List.length_cons a l
        by_cases hlong : max_chunk < (a :: l).length
        · have hceq : ((a :: l).take max_chunk).length = max_chunk := by
            rw [List.length_take, hL]
            rw [hL] at hlong
            omega
          obtain ⟨h1, h2⟩ := ih ((a :: l).drop max_chunk)
            (drop_chunk_length_le hlen) _ k r hr
          rw [hceq] at h1
          constructor
          · rw [h1]
            ring
          · rw [h2, List.drop_drop]
            have harith : max_chunk + k * max_chunk = (k + 1) * max_chunk := by
              ring
            rw [harith]
        · have hdrop : (a :: l).drop max_chunk = [] :=
            List.drop_eq_nil_of_le (by omega)
          rw [hdrop, chunk_requests_nil] at hr
          simp at hr

theorem chunk_ranges_zero (S i : Nat) : chunk_ranges S i 0 = [] := by
  rw [chunk_ranges]
  simp

theorem chunk_ranges_succ (S i n : Nat) (h : n ≠ 0) :
    chunk_ranges S i n =
      (i, if min max_chunk n < max_chunk then S
          else i + min max_chunk n) ::
        chunk_ranges S (i + min max_chunk n) (n - min max_chunk n) := by
  rw [chunk_ranges]
  simp [h]

/-- The ranges of the issued chunk requests depend only on the file's
length. -/
theorem chunk_requests_map_range (uri : String) (S : Nat) :
    ∀ n (rest : List Nat), rest.length ≤ n → ∀ i,
      (chunk_requests uri S i rest).map range_pair =
        chunk_ranges S i rest.length := by
  intro n
  induction n with
  | zero =>
    intro rest hlen i
    have hnil : rest = [] := List.eq_nil_of_length_eq_zero (by omega)
    subst hnil
    rw [chunk_requests_nil]
    simp [chunk_ranges_zero]
  | succ n ih =>
    intro rest hlen i
    cases rest with
    | nil =>
      rw [chunk_requests_nil]
      simp [chunk_ranges_zero]
    | cons a l =>
      rw [chunk_requests_cons]
      simp only [List.map_cons, range_pair_head]
      have hL : (a :: l).length = l.length + 1 := List.length_cons a l
      have ht : ((a :: l).take max_chunk).length =
          min max_chunk (l.length + 1) := by
        rw [List.length_take, hL]
      rw [chunk_ranges_succ S i (a :: l).length (by rw [hL]; omega)]
      rw [ih ((a :: l).drop max_chunk) (drop_chunk_length_le hlen) _]
      rw [List.length_drop, ht, hL]
      have hd : l.length + 1 - max_chunk =
          l.length + 1 - min max_chunk (l.length + 1) := by
        omega
      rw [hd]

/-- The three ranges of a 2.5 MiB (2621440-byte) file uploaded in 1 MiB
chunks. -/
theorem chunk_ranges_eval :
    chunk_ranges 2621440 0 2621440 =
      [(0, 1048576), (1048576, 2097152), (2097152, 2621440)] := by
  have hC : max_chunk = 1048576 := by norm_num [max_chunk]
  rw [chunk_ranges_succ 2621440 0 2621440 (by norm_num), hC]
  rw [show min 1048576 2621440 = 1048576 by omega]
  rw [if_neg (lt_irrefl 1048576)]
  norm_num
  rw [chunk_ranges_succ 2621440 1048576 1572864 (by norm_num), hC]
  rw [show min 1048576 1572864 = 1048576 by omega]
  rw [if_neg (lt_irrefl 1048576)]
  norm_num
  rw [chunk_ranges_succ 2621440 2097152 524288 (by norm_num), hC]
  rw [show min 1048576 524288 = 524288 by omega]
  rw [if_pos (by norm_num : (524288:Nat) < 1048576)]
  norm_num
  exact chunk_ranges_zero 2621440 2621440

theorem legacy_check_loop_unfold (polls : Nat → TaskResponse)
    (count : Nat) :
    Legacy.check_loop polls count =
      if (polls count).status = "FINISHED" then
        .ok (polls count).status
      else if (polls count).status = "FAILED" then
        .error (.taskFailed (polls count).errorMessage)
      else if count > 120 then
        .error .taskTimeout
      else
        Legacy.check_loop polls (count + 1) := by
  rw [Legacy.check_loop]
  simp only [dite_eq_ite]

/-- The two polling loops poll the same sequence and differ only in the
returned value: the legacy loop returns exactly the `status` field of the
response the current loop returns (and the raised exceptions agree). -/
theorem legacy_check_loop_eq_map_status (polls : Nat → TaskResponse) :
    ∀ n count, 121 - count = n →
      Legacy.check_loop polls count =
        (check_loop polls count).map (fun r => r.status) := by
  intro n
  induction n with
  | zero =>
    intro count hd
    rw [legacy_check_loop_unfold, check_loop_unfold]
    by_cases h1 : (polls count).status = "FINISHED"
    · rw [if_pos h1, if_pos h1]
      simp [Except.map]
    · rw [if_neg h1, if_neg h1]
      by_cases h2 : (polls count).status = "FAILED"
      · rw [if_pos h2, if_pos h2]
        simp [Except.map]
      · rw [if_neg h2, if_neg h2, if_pos (by omega : count > 120),
          if_pos (by omega : count > 120)]
        simp [Except.map]
  | succ n ih =>
    intro count hd
    rw [legacy_check_loop_unfold, check_loop_unfold]
    by_cases h1 : (polls count).status = "FINISHED"
    · rw [if_pos h1, if_pos h1]
      simp [Except.map]
    · rw [if_neg h1, if_neg h1]
      by_cases h2 : (polls count).status = "FAILED"
      · rw [if_pos h2, if_pos h2]
        simp [Except.map]
      · rw [if_neg h2, if_neg h2, if_neg (by omega : ¬ count > 120),
          if_neg (by omega : ¬ count > 120)]
        exact ih (count + 1) (by omega)

theorem upload_rpm_eq (transport : ChunkRequest → Except PyError Unit)
    (file_name : String) (file : List Nat) (delete_file : Bool) :
    upload_rpm transport file_name file delete_file =
      match (upload_loop transport (upload_uri file_name)
          file.length 0 file).2 with
      | some e =>
        { requests := (upload_loop transport (upload_uri file_name)
            file.length 0 file).1, error := some e, removed := false }
      | none =>
        { requests := (upload_loop transport (upload_uri file_name)
            file.length 0 file).1, error := none,
          removed := delete_file } := rfl

theorem upload_rpm_error_none_iff
    (transport : ChunkRequest → Except PyError Unit) (file_name : String)
    (file : List Nat) (delete_file : Bool) :
    (upload_rpm transport file_name file delete_file).error = none ↔
      ∀ r ∈ chunk_requests (upload_uri file_name) file.length 0 file,
        transport r = .ok () := by
  rw [upload_rpm_eq]
  rw [← upload_loop_none_iff transport (upload_uri file_name) file.length
    file.length file le_rfl 0]
  cases h : (upload_loop transport (upload_uri file_name)
      file.length 0 file).2 <;> simp [h]

theorem upload_rpm_requests_of_none
    (transport : ChunkRequest → Except PyError Unit) (file_name : String)
    (file : List Nat) (delete_file : Bool)
    (h : (upload_rpm transport file_name file delete_file).error = none) :
    (upload_rpm transport file_name file delete_file).requests =
      chunk_requests (upload_uri file_name) file.length 0 file := by
  have hall := (upload_rpm_error_none_iff transport file_name file
    delete_file).1 h
  have hloop := upload_loop_of_all_ok transport (upload_uri file_name)
    file.length file.length file le_rfl 0 hall
  rw [upload_rpm_eq, hloop]

theorem upload_rpm_removed_iff
    (transport : ChunkRequest → Except PyError Unit) (file_name : String)
    (file : List Nat) (delete_file : Bool) :
    (upload_rpm transport file_name file delete_file).removed = true ↔
      ((upload_rpm transport file_name file delete_file).error = none ∧
        delete_file = true) := by
  rw [upload_rpm_eq]
  cases h : (upload_loop transport (upload_uri file_name)
      file.length 0 file).2 <;> simp [h]

theorem upload_rpm_error_some
    (transport : ChunkRequest → Except PyError Unit) (file_name : String)
    (file : List Nat) (delete_file : Bool) (e : PyError)
    (h : (upload_rpm transport file_name file delete_file).error = some e) :
    (upload_rpm transport file_name file delete_file).removed = false ∧
      ∃ r ∈ (upload_rpm transport file_name file delete_file).requests,
        transport r = .error e := by
  rw [upload_rpm_eq] at h ⊢
  cases h2 : (upload_loop transport (upload_uri file_name)
      file.length 0 file).2 with
  | none => rw [h2] at h; simp at h
  | some e2 =>
    rw [h2] at h
    have h3 : e2 = e := Option.some.inj h
    subst h3
    refine ⟨rfl, ?_⟩
    exact upload_loop_some transport (upload_uri file_name)
      file.length file.length file le_rfl 0 e2 h2

theorem tryDigits_pos (cont : List Char → Option Nat) (s : List Char) :
    ∀ k n, tryDigits cont s k = some n → 1 ≤ n := by
  intro k
  induction k with
  | zero => intro n h; simp [tryDigits] at h
  | succ k ih =>
    intro n h
    rw [tryDigits] at h
    cases hc : cont (s.drop (k + 1)) with
    | none => rw [hc] at h; exact ih n h
    | some m =>
      rw [hc] at h
      simp only [Option.some.injEq] at h
      omega

theorem tryDigits_bound (cont : List Char → Option Nat)
    (hc : ConservesLen cont) (s : List Char) :
    ∀ k, k ≤ s.length → ∀ n, tryDigits cont s k = some n →
      n ≤ s.length := by
  intro k
  induction k with
  | zero => intro _ n h; simp [tryDigits] at h
  | succ k ih =>
    intro hk n h
    rw [tryDigits] at h
    cases hcc : cont (s.drop (k + 1)) with
    | none => rw [hcc] at h; exact ih (by omega) n h
    | some m =>
      rw [hcc] at h
      simp only [Option.some.injEq] at h
      have hm := hc _ _ hcc
      rw [List.length_drop] at hm
      omega

theorem leadingDigits_le (s : List Char) : leadingDigits s ≤ s.length := by
  induction s with
  | nil => simp [leadingDigits]
  | cons c cs ih =>
    rw [leadingDigits]
    by_cases h : c.isDigit <;> simp [h] <;> omega

theorem matchDigitsThen_conserves (cont : List Char → Option Nat)
    (hc : ConservesLen cont) : ConservesLen (matchDigitsThen cont) := by
  intro t m h
  exact tryDigits_bound cont hc t (leadingDigits t) (leadingDigits_le t) m h

theorem matchAnyThen_conserves (cont : List Char → Option Nat)
    (hc : ConservesLen cont) : ConservesLen (matchAnyThen cont) := by
  intro t m h
  cases t with
  | nil => simp [matchAnyThen] at h
  | cons c t2 =>
    rw [matchAnyThen] at h
    cases hcc : cont t2 with
    | none => rw [hcc] at h; simp at h
    | some m2 =>
      rw [hcc] at h
      simp only [Option.map_some', Option.some.injEq] at h
      have := hc _ _ hcc
      simp [List.length_cons]
      omega

theorem matchVersionAt_conserves : ConservesLen matchVersionAt := by
  unfold matchVersionAt
  refine matchDigitsThen_conserves _ (matchAnyThen_conserves _
    (matchDigitsThen_conserves _ (matchAnyThen_conserves _
    (matchDigitsThen_conserves _ ?_))))
  intro t m h
  simp only [Option.some.injEq] at h
  omega

theorem matchVersionAt_pos (s : List Char) (n : Nat)
    (h : matchVersionAt s = some n) : 1 ≤ n :=
  tryDigits_pos _ s (leadingDigits s) n h

theorem searchVersion_bound (s : List Char) (p : Nat × Nat)
    (h : searchVersion s = some p) : 1 ≤ p.2 ∧ p.1 + p.2 ≤ s.length := by
  induction s generalizing p with
  | nil => simp [searchVersion] at h
  | cons c rest ih =>
    rw [searchVersion] at h
    cases hm : matchVersionAt (c :: rest) with
    | some len =>
      rw [hm] at h
      simp only [Option.some.injEq] at h
      subst h
      have h1 := matchVersionAt_pos _ _ hm
      have h2 := matchVersionAt_conserves _ _ hm
      exact ⟨h1, by simpa using h2⟩
    | none =>
      rw [hm] at h
      cases hs : searchVersion rest with
      | none => rw [hs] at h; simp at h
      | some q =>
        rw [hs] at h
        simp only [Option.map_some', Option.some.injEq] at h
        subst h
        have := ih q hs
        simp only [List.length_cons]
        omega

/-- Whenever the version extraction succeeds, the extracted string is
non-empty (a match of the pattern has at least three characters, in
particular at least one). -/
theorem get_version_ok_ne_empty (package_name : String) (v : String)
    (h : get_version_number_from_package_name package_name = .ok v) :
    v ≠ "" := by
  unfold get_version_number_from_package_name at h
  cases hs : searchVersion package_name.data with
  | none => rw [hs] at h; simp at h
  | some p =>
    rw [hs] at h
    simp only [Except.ok.injEq] at h
    subst h
    obtain ⟨h1, h2⟩ := searchVersion_bound _ _ hs
    intro hcon
    have hdata : ((package_name.data.drop p.1).take p.2).length = 0 := by
      have : (String.mk ((package_name.data.drop p.1).take p.2)).data =
          (String.mk []).data := by rw [hcon]
      simpa using congrArg List.length this
    rw [List.length_take, List.length_drop] at hdata
    omega

theorem check_rpm_exists_of_ok (component_package_name : String)
    (polls : Nat → TaskResponse) (r : TaskResponse)
    (h : check_rpm_task_status polls = .ok r) :
    check_rpm_exists component_package_name polls =
      match r.queryResponse.filter
          (fun i => pyIn component_package_name i.packageName) with
      | [p] => get_version_number_from_package_name p.packageName
      | _ => .ok "" := by
  unfold check_rpm_exists
  rw [h]
  rfl

theorem check_rpm_exists_of_error (component_package_name : String)
    (polls : Nat → TaskResponse) (e : PyError)
    (h : check_rpm_task_status polls = .error e) :
    check_rpm_exists component_package_name polls = .error e := by
  unfold check_rpm_exists
  rw [h]
  rfl

theorem is_installed_of_version (component_package_name latest_version :
    String) (polls : Nat → TaskResponse) (v : String)
    (h : check_rpm_exists component_package_name polls = .ok v) :
    is_installed component_package_name latest_version polls =
      .ok { installed := v != "", installed_version := v,
            latest_version := latest_version } := by
  unfold is_installed
  rw [h]
  rfl

theorem is_installed_of_error (component_package_name latest_version :
    String) (polls : Nat → TaskResponse) (e : PyError)
    (h : check_rpm_exists component_package_name polls = .error e) :
    is_installed component_package_name latest_version polls = .error e := by
  unfold is_installed
  rw [h]
  rfl

/-- With a logger present, the dependency check logs exactly one warning
for each dependent all of whose constraints are satisfied. -/
theorem check_for_dependency_some
    (compare_versions : String → String → String → Bool) (version : String) :
    ∀ dependencies : List (String × DependencyInfo),
      check_for_dependency (some ()) compare_versions version dependencies =
        .ok ((dependencies.filter (fun nd =>
            (nd.2.versions.filter (fun i =>
              compare_versions version i.version i.operation)).length ==
              nd.2.versions.length)).map
          (fun nd => dependency_warning nd.1 nd.2)) := by
  intro dependencies
  induction dependencies with
  | nil => rfl
  | cons nd rest ih =>
    obtain ⟨name, dependency⟩ := nd
    rw [check_for_dependency]
    by_cases h : (dependency.versions.filter (fun i =>
        compare_versions version i.version i.operation)).length =
        dependency.versions.length
    · rw [if_pos h, ih, List.filter_cons, if_pos (by simpa using h)]
      rfl
    · rw [if_neg h, ih, List.filter_cons, if_neg (by simpa using h)]

/-- With no logger, the dependency check raises `AttributeError` as soon
as some dependent has all of its constraints satisfied. -/
theorem check_for_dependency_none
    (compare_versions : String → String → String → Bool) (version : String) :
    ∀ dependencies : List (String × DependencyInfo),
      (∃ nd ∈ dependencies,
        (nd.2.versions.filter (fun i =>
          compare_versions version i.version i.operation)).length =
          nd.2.versions.length) →
      check_for_dependency none compare_versions version dependencies =
        .error (.attributeError
          "NoneType object has no attribute warning") := by
  intro dependencies
  induction dependencies with
  | nil =>
    rintro ⟨nd, hmem, _⟩
    simp at hmem
  | cons nd0 rest ih =>
    rintro ⟨nd, hmem, hmatch⟩
    obtain ⟨name, dependency⟩ := nd0
    rw [check_for_dependency]
    by_cases h : (dependency.versions.filter (fun i =>
        compare_versions version i.version i.operation)).length =
        dependency.versions.length
    · rw [if_pos h]
    · rw [if_neg h]
      rcases List.mem_cons.1 hmem with hmem | hmem
      · exfalso
        apply h
        rw [hmem] at hmatch
        exact hmatch
      · exact ih ⟨nd, hmem, hmatch⟩

theorem uninstall_of_poll_ok (logger : Option Unit)
    (compare_versions : String → String → String → Bool)
    (component version : String)
    (dependencies : List (String × DependencyInfo))
    (polls : Nat → TaskResponse) (r : TaskResponse)
    (h : check_rpm_task_status polls = .ok r) :
    uninstall logger compare_versions component version dependencies polls =
      match check_for_dependency logger compare_versions version
          dependencies with
      | .error e => .error e
      | .ok warnings =>
        .ok ({ component := component, version := version }, warnings) := by
  unfold uninstall
  rw [h]
  cases h2 : check_for_dependency logger compare_versions version
      dependencies <;> rfl

/-- The legacy poller returns exactly the `status` field of what the
current poller returns. -/
theorem legacy_check_rpm_task_status_eq (polls : Nat → TaskResponse) :
    Legacy.check_rpm_task_status polls =
      (check_rpm_task_status polls).map (fun r => r.status) :=
  legacy_check_loop_eq_map_status polls 121 0 rfl

theorem check_poll_const_finished (r : TaskResponse)
    (h : r.status = "FINISHED") :
    check_rpm_task_status (fun _ => r) = .ok r :=
  check_loop_of_finished (fun _ => r) 0 0 0 rfl le_rfl (by omega) h
    (fun j _ hj => absurd hj (by omega))

theorem Tiles_last_exists (l : List (Nat × Nat)) (lo hi : Nat)
    (ht : Tiles l lo hi) (hne : l ≠ []) :
    ∃ p, l.getLast? = some p ∧ p.2 = hi := by
  have hsome : l.getLast? = some (l.getLast hne) :=
    List.getLast?_eq_getLast l hne
  exact ⟨l.getLast hne, hsome, Tiles_getLast l lo hi ht _ hsome⟩

theorem map_contentRange_factor (S : Nat) :
    ∀ reqs : List ChunkRequest, (∀ r ∈ reqs, r.totalSize = S) →
      reqs.map contentRangeHeader =
        (reqs.map range_pair).map (fun p =>
          toString p.1 ++ "-" ++ toString (p.2 - 1) ++ "/" ++ toString S) := by
  intro reqs
  induction reqs with
  | nil => intro _; rfl
  | cons r rest ih =>
    intro h
    simp only [List.map_cons]
    rw [ih (fun x hx => h x (List.mem_cons_of_mem _ hx))]
    have hts := h r (List.mem_cons_self _ _)
    rw [contentRangeHeader, hts]
    rfl

theorem legacy_upload_loop_nil
    (transport : ChunkRequest → Except PyError Unit) (uri : String)
    (S i : Nat) : Legacy.upload_loop transport uri S i [] = ([], none) := by
  rw [Legacy.upload_loop]

theorem legacy_upload_loop_cons
    (transport : ChunkRequest → Except PyError Unit) (uri : String)
    (S i : Nat) (a : Nat) (l : List Nat) :
    Legacy.upload_loop transport uri S i (a :: l) =
      match transport (head_request uri S i (a :: l)) with
      | .error err => ([head_request uri S i (a :: l)], some err)
      | .ok _ =>
        (head_request uri S i (a :: l) ::
            (Legacy.upload_loop transport uri S
              (i + ((a :: l).take max_chunk).length)
              ((a :: l).drop max_chunk)).1,
          (Legacy.upload_loop transport uri S
            (i + ((a :: l).take max_chunk).length)
            ((a :: l).drop max_chunk)).2) := by
  rw [Legacy.upload_loop, head_request]

theorem legacy_upload_loop_eq
    (transport : ChunkRequest → Except PyError Unit) (uri : String)
    (S : Nat) :
    ∀ n (rest : List Nat), rest.length ≤ n → ∀ i,
      Legacy.upload_loop transport uri S i rest =
        upload_loop transport uri S i rest := by
  intro n
  induction n with
  | zero =>
    intro rest hlen i
    have hnil : rest = [] := List.eq_nil_of_length_eq_zero (by omega)
    subst hnil
    rw [legacy_upload_loop_nil, upload_loop_nil]
  | succ n ih =>
    intro rest hlen i
    cases rest with
    | nil => rw [legacy_upload_loop_nil, upload_loop_nil]
    | cons a l =>
      rw [legacy_upload_loop_cons, upload_loop_cons,
        ih ((a :: l).drop max_chunk) (drop_chunk_length_le hlen) _]

theorem legacy_upload_rpm_def
    (transport : ChunkRequest → Except PyError Unit) (file_name : String)
    (file : List Nat) (delete_file : Bool) :
    Legacy.upload_rpm transport file_name file delete_file =
      match (Legacy.upload_loop transport (upload_uri file_name)
          file.length 0 file).2 with
      | some e =>
        { requests := (Legacy.upload_loop transport (upload_uri file_name)
            file.length 0 file).1, error := some e, removed := false }
      | none =>
        { requests := (Legacy.upload_loop transport (upload_uri file_name)
            file.length 0 file).1, error := none,
          removed := delete_file } := rfl

/-- The legacy `_upload_rpm` and the current one are the same function. -/
theorem legacy_upload_rpm_eq : Legacy.upload_rpm = upload_rpm := by
  funext transport file_name file delete_file
  rw [legacy_upload_rpm_def, upload_rpm_eq,
    legacy_upload_loop_eq transport (upload_uri file_name) file.length
      file.length file le_rfl 0]

/-- C1: for every uploaded file, the byte ranges `[startOffset, endOffset)`
of the issued chunk requests exactly tile `[0, S)` with no gaps and no
overlaps; every request satisfies
`endOffset = min (startOffset + max_chunk) S`, so a full chunk's
Content-Range ends at `startOffset + max_chunk - 1` and the last range ends
at `S - 1` (`endOffset = S`); and a 2.5 MiB (2621440-byte) file yields
exactly 3 requests with Content-Range headers `0-1048575/2621440`,
`1048576-2097151/2621440` and `2097152-2621439/2621440`. -/
theorem claim_c1 :
    (∀ (transport : ChunkRequest → Except PyError Unit)
        (file_name : String) (file : List Nat) (delete_file : Bool),
      (upload_rpm transport file_name file delete_file).error = none →
      Tiles ((upload_rpm transport file_name file delete_file).requests.map
        range_pair) 0 file.length ∧
      (∀ r ∈ (upload_rpm transport file_name file delete_file).requests,
        r.endOffset = min (r.startOffset + max_chunk) file.length) ∧
      (file ≠ [] →
        ∃ p, ((upload_rpm transport file_name file delete_file).requests.map
          range_pair).getLast? = some p ∧ p.2 = file.length)) ∧
    (∀ (transport : ChunkRequest → Except PyError Unit)
        (file_name : String) (file : List Nat) (delete_file : Bool),
      (upload_rpm transport file_name file delete_file).error = none →
      file.length = 2621440 →
      (upload_rpm transport file_name file delete_file).requests.length = 3 ∧
      (upload_rpm transport file_name file delete_file).requests.map
        contentRangeHeader =
        ["0-1048575/2621440", "1048576-2097151/2621440",
          "2097152-2621439/2621440"]) := by
  constructor
  · intro transport file_name file delete_file h
    have hreq := upload_rpm_requests_of_none transport file_name file
      delete_file h
    rw [hreq]
    refine ⟨chunk_requests_tiles _ _ file.length file le_rfl 0 (by omega),
      ?_, ?_⟩
    · intro r hr
      exact (chunk_requests_mem _ _ file.length file le_rfl 0 (by omega)
        r hr).2.2.2.1
    · intro hne
      have hcne : chunk_requests (upload_uri file_name) file.length 0 file
          ≠ [] := by
        cases file with
        | nil => exact absurd rfl hne
        | cons a l =>
          rw [chunk_requests_cons]
          exact List.cons_ne_nil _ _
      have hmne : (chunk_requests (upload_uri file_name) file.length 0
          file).map range_pair ≠ [] := by
        simpa using hcne
      exact Tiles_last_exists _ 0 file.length
        (chunk_requests_tiles _ _ file.length file le_rfl 0 (by omega)) hmne
  · intro transport file_name file delete_file h hlen
    have hreq := upload_rpm_requests_of_none transport file_name file
      delete_file h
    have hmap := chunk_requests_map_range (upload_uri file_name) file.length
      file.length file le_rfl 0
    rw [hlen] at hreq hmap
    rw [chunk_ranges_eval] at hmap
    constructor
    · rw [hreq]
      have hlm := congrArg List.length hmap
      simpa using hlm
    · rw [hreq]
      rw [map_contentRange_factor 2621440 _ (fun r hr =>
        (chunk_requests_mem _ 2621440 file.length file le_rfl 0
          (by omega) r hr).2.1)]
      rw [hmap]
      rfl

/-- C1 witness: the all-accepting transport on a concrete 2621440-byte
file satisfies the hypotheses, and the three claimed Content-Range headers
are emitted. -/
theorem claim_c1_witness :
    ((upload_rpm ok_transport "/var/tmp/pkg.rpm"
        (List.replicate 2621440 0) true).error = none ∧
      (List.replicate 2621440 (0 : Nat)).length = 2621440) ∧
    (upload_rpm ok_transport "/var/tmp/pkg.rpm"
        (List.replicate 2621440 0) true).requests.map contentRangeHeader =
      ["0-1048575/2621440", "1048576-2097151/2621440",
        "2097152-2621439/2621440"] := by
  have herr : (upload_rpm ok_transport "/var/tmp/pkg.rpm"
      (List.replicate 2621440 0) true).error = none :=
    (upload_rpm_error_none_iff _ _ _ _).2 (fun r hr => rfl)
  have hlen : (List.replicate 2621440 (0 : Nat)).length = 2621440 :=
    List.length_replicate 2621440 0
  exact ⟨⟨herr, hlen⟩,
    (claim_c1.2 ok_transport "/var/tmp/pkg.rpm" _ true herr hlen).2⟩

/-- C2 (amended): the poller returns the payload iff some poll among the
first 122 (indices 0..121) reports FINISHED with every earlier poll
non-terminal; it raises the FAILED exception with the server's
`errorMessage` iff a FAILED poll occurs first in that window; it raises the
timeout exception iff all 122 polls are non-terminal (the `count > 120`
check runs after the status checks, so the window is 122 polls, not 120);
and the timeout exception is distinct from every task-failure exception. -/
theorem claim_c2 :
    ∀ polls : Nat → TaskResponse,
      (∀ r, check_rpm_task_status polls = .ok r ↔
        ∃ i, i ≤ 121 ∧ (polls i).status = "FINISHED" ∧ r = polls i ∧
          ∀ j, j < i → nonTerminal (polls j)) ∧
      (∀ msg, check_rpm_task_status polls = .error (.taskFailed msg) ↔
        ∃ i, i ≤ 121 ∧ (polls i).status = "FAILED" ∧
          msg = (polls i).errorMessage ∧
          ∀ j, j < i → nonTerminal (polls j)) ∧
      (check_rpm_task_status polls = .error .taskTimeout ↔
        ∀ i, i ≤ 121 → nonTerminal (polls i)) ∧
      (∀ msg, PyError.taskTimeout ≠ PyError.taskFailed msg) :=
  fun polls => ⟨check_rpm_task_status_ok_iff polls,
    check_rpm_task_status_failed_iff polls,
    check_rpm_task_status_timeout_iff polls,
    fun msg => by simp⟩

/-- C2 counterexample: with polls that stay RUNNING through index 120 and
turn FINISHED at index 121, the poller returns the payload even though no
poll within the claimed ceiling of 120 polls (indices 0..119) reported
FINISHED — so "returns the payload iff some poll within the 120-poll
ceiling reports FINISHED" is false of the code. -/
theorem claim_c2_counterexample :
    check_rpm_task_status late_polls = .ok finished_resp ∧
      (List.range 120).all
        (fun i => (late_polls i).status != "FINISHED") = true := by
  constructor
  · have hfin : (late_polls 121).status = "FINISHED" := by
      simp [late_polls, finished_resp]
    have hrun := check_loop_of_finished late_polls 121 121 0 rfl
      (by omega) (by omega) hfin
      (fun j _ hj => by
        have : late_polls j = running_resp := by simp [late_polls, hj]
        rw [this]
        decide)
    have hval : late_polls 121 = finished_resp := by
      simp [late_polls]
    rw [check_rpm_task_status, hrun, hval]
  · decide

/-- C3: with `delete_file = true`, the local file is removed iff the
transport accepted every chunk request of the file; and when a chunk
request fails, the transport's error propagates out of `_upload_rpm` and
the file is not removed. -/
theorem claim_c3 :
    ∀ (transport : ChunkRequest → Except PyError Unit)
      (file_name : String) (file : List Nat),
      ((upload_rpm transport file_name file true).removed = true ↔
        ∀ r ∈ chunk_requests (upload_uri file_name) file.length 0 file,
          transport r = .ok ()) ∧
      (∀ e, (upload_rpm transport file_name file true).error = some e →
        (upload_rpm transport file_name file true).removed = false ∧
        ∃ r ∈ (upload_rpm transport file_name file true).requests,
          transport r = .error e) := by
  intro transport file_name file
  constructor
  · rw [upload_rpm_removed_iff, upload_rpm_error_none_iff]
    simp
  · intro e he
    exact upload_rpm_error_some transport file_name file true e he

/-- C3 witness: a transport that rejects the first chunk makes the upload
raise that error and leaves the file in place. -/
theorem claim_c3_witness :
    (upload_rpm failing_transport "/var/tmp/pkg.rpm" [1, 2, 3] true).error =
      some (.transport "connection reset") ∧
    ((upload_rpm failing_transport "/var/tmp/pkg.rpm" [1, 2, 3]
        true).removed = false ∧
      ∃ r ∈ (upload_rpm failing_transport "/var/tmp/pkg.rpm" [1, 2, 3]
          true).requests,
        failing_transport r = .error (.transport "connection reset")) := by
  have herr : (upload_rpm failing_transport "/var/tmp/pkg.rpm" [1, 2, 3]
      true).error = some (.transport "connection reset") := by
    rw [upload_rpm_eq]
    rw [upload_loop_cons_error failing_transport
      (upload_uri "/var/tmp/pkg.rpm") ([1, 2, 3] : List Nat).length 0 1 [2, 3]
      (.transport "connection reset") rfl]
  exact ⟨herr,
    (claim_c3 failing_transport "/var/tmp/pkg.rpm" [1, 2, 3]).2 _ herr⟩

/-- C7: every chunk request carries a Content-Range header formatted
`startOffset-(endOffset-1)/totalSize`, a Content-Length header equal to
`endOffset` (the loop's `end` value, not the chunk's byte count), a
Content-Type of `application/octet-stream`, and a raw (non-JSON) body of
exactly the `endOffset - startOffset` file bytes of its slice — the bodies
concatenated in order are exactly the file. -/
theorem claim_c7 :
    ∀ (transport : ChunkRequest → Except PyError Unit)
      (file_name : String) (file : List Nat) (delete_file : Bool),
      (upload_rpm transport file_name file delete_file).error = none →
      (∀ r ∈ (upload_rpm transport file_name file delete_file).requests,
        contentRangeHeader r = toString r.startOffset ++ "-" ++
          toString (r.endOffset - 1) ++ "/" ++ toString file.length ∧
        contentLengthHeader r = toString r.endOffset ∧
        contentTypeHeader r = "application/octet-stream" ∧
        r.bodyContentType = "raw" ∧
        r.body.length = r.endOffset - r.startOffset) ∧
      ((upload_rpm transport file_name file delete_file).requests.map
        (fun r => r.body)).flatten = file := by
  intro transport file_name file delete_file h
  have hreq := upload_rpm_requests_of_none transport file_name file
    delete_file h
  rw [hreq]
  constructor
  · intro r hr
    have hmem := chunk_requests_mem _ file.length file.length file le_rfl 0
      (by omega) r hr
    refine ⟨?_, rfl, rfl, hmem.2.2.1, hmem.2.2.2.2.1⟩
    rw [contentRangeHeader, hmem.2.1]
  · exact chunk_requests_flatten _ file.length file.length file le_rfl 0

/-- C7 witness: the all-accepting transport on a concrete two-byte file
satisfies the hypothesis, and the single request carries the claimed
headers and body. -/
theorem claim_c7_witness :
    (upload_rpm ok_transport "/var/tmp/pkg.rpm" [7, 9] true).error = none ∧
    ((∀ r ∈ (upload_rpm ok_transport "/var/tmp/pkg.rpm" [7, 9]
        true).requests,
      contentRangeHeader r = toString r.startOffset ++ "-" ++
        toString (r.endOffset - 1) ++ "/" ++
        toString ([7, 9] : List Nat).length ∧
      contentLengthHeader r = toString r.endOffset ∧
      contentTypeHeader r = "application/octet-stream" ∧
      r.bodyContentType = "raw" ∧
      r.body.length = r.endOffset - r.startOffset) ∧
    ((upload_rpm ok_transport "/var/tmp/pkg.rpm" [7, 9] true).requests.map
      (fun r => r.body)).flatten = [7, 9]) := by
  have herr : (upload_rpm ok_transport "/var/tmp/pkg.rpm" [7, 9]
      true).error = none :=
    (upload_rpm_error_none_iff _ _ _ _).2 (fun r hr => rfl)
  exact ⟨herr, claim_c7 ok_transport "/var/tmp/pkg.rpm" [7, 9] true herr⟩

/-- C4: with a logger present, `uninstall` returns
`{'component': ..., 'version': ...}` whatever the dependency table is, and
the warnings logged are exactly one per dependent all of whose constraints
hold of the uninstalled version (each naming the dependent and its
documentation link); a dependent with any failing constraint produces no
warning, and the warnings never change the returned value.
`compare_versions` is the external comparison utility, universally
quantified. -/
theorem claim_c4 :
    ∀ (compare_versions : String → String → String → Bool)
      (component version : String)
      (dependencies : List (String × DependencyInfo))
      (polls : Nat → TaskResponse) (r : TaskResponse),
      check_rpm_task_status polls = .ok r →
      uninstall (some ()) compare_versions component version dependencies
          polls =
        .ok ({ component := component, version := version },
          (dependencies.filter (fun nd =>
            (nd.2.versions.filter (fun i =>
              compare_versions version i.version i.operation)).length ==
              nd.2.versions.length)).map
            (fun nd => dependency_warning nd.1 nd.2)) := by
  intro compare_versions component version dependencies polls r h
  rw [uninstall_of_poll_ok (some ()) compare_versions component version
    dependencies polls r h]
  rw [check_for_dependency_some compare_versions version dependencies]

/-- C4 witness: a concrete uninstall with one fully-matching dependent
returns the component/version pair and logs exactly the one warning. -/
theorem claim_c4_witness :
    check_rpm_task_status (fun _ => finished_resp) = .ok finished_resp ∧
    uninstall (some ()) accept_all_compare "as3" "3.18.0" as3_dependencies
        (fun _ => finished_resp) =
      .ok ({ component := "as3", version := "3.18.0" },
        ["A component package dependency has not been removed: as3" ++
          " See documentation for more details: " ++
          "https://example.invalid/uninstall"]) := by
  have hpoll : check_rpm_task_status (fun _ => finished_resp) =
      .ok finished_resp :=
    check_poll_const_finished finished_resp rfl
  refine ⟨hpoll, ?_⟩
  rw [claim_c4 accept_all_compare "as3" "3.18.0" as3_dependencies
    (fun _ => finished_resp) finished_resp hpoll]
  rfl

/-- C5: when the poll succeeds, `is_installed` reports not-installed with
an empty version whenever the number of query entries whose package name
contains the component's package-name substring is not exactly one
(nothing is raised in the ambiguous case), and reports installed with the
extracted version when exactly one entry matches and the extraction
succeeds; `latest_version` is the metadata answer in every case. -/
theorem claim_c5 :
    ∀ (component_package_name latest_version : String)
      (polls : Nat → TaskResponse) (r : TaskResponse),
      check_rpm_task_status polls = .ok r →
      ((r.queryResponse.filter (fun i =>
          pyIn component_package_name i.packageName)).length ≠ 1 →
        is_installed component_package_name latest_version polls =
          .ok { installed := false, installed_version := "",
                latest_version := latest_version }) ∧
      (∀ p v, r.queryResponse.filter (fun i =>
            pyIn component_package_name i.packageName) = [p] →
        get_version_number_from_package_name p.packageName = .ok v →
        is_installed component_package_name latest_version polls =
          .ok { installed := true, installed_version := v,
                latest_version := latest_version }) := by
  intro component_package_name latest_version polls r hpoll
  have hex := check_rpm_exists_of_ok component_package_name polls r hpoll
  constructor
  · intro hne
    have hemp : check_rpm_exists component_package_name polls = .ok "" := by
      rw [hex]
      rcases hfe : r.queryResponse.filter (fun i =>
          pyIn component_package_name i.packageName) with _ | ⟨p, rest⟩
      · rw [hfe]
      · rcases rest with _ | ⟨q, rest2⟩
        · exfalso
          apply hne
          rw [hfe]
          rfl
        · rw [hfe]
    rw [is_installed_of_version component_package_name latest_version polls
      "" hemp]
    rw [show (("" : String) != "") = false from by decide]
  · intro p v hfe hver
    have hv := get_version_ok_ne_empty _ _ hver
    have hok : check_rpm_exists component_package_name polls = .ok v := by
      rw [hex, hfe]
      exact hver
    rw [is_installed_of_version component_package_name latest_version polls
      v hok]
    have hb : (v != "") = true := by
      simp only [bne_iff_ne, ne_eq]
      exact hv
    rw [hb]

/-- C5 witness: a concrete query with exactly one matching package name
reports installed with the extracted version `3.18.0`, and one with no
matching entry reports not-installed with an empty version. -/
theorem claim_c5_witness :
    (check_rpm_task_status (fun _ => appsvcs_resp) = .ok appsvcs_resp ∧
      appsvcs_resp.queryResponse.filter (fun i =>
        pyIn "f5-appsvcs" i.packageName) =
        [{ packageName := "f5-appsvcs-3.18.0-4.noarch" }] ∧
      get_version_number_from_package_name "f5-appsvcs-3.18.0-4.noarch" =
        .ok "3.18.0") ∧
    is_installed "f5-appsvcs" "3.20.0" (fun _ => appsvcs_resp) =
      .ok { installed := true, installed_version := "3.18.0",
            latest_version := "3.20.0" } ∧
    ((finished_resp.queryResponse.filter (fun i =>
        pyIn "f5-appsvcs" i.packageName)).length ≠ 1 ∧
      is_installed "f5-appsvcs" "3.20.0" (fun _ => finished_resp) =
        .ok { installed := false, installed_version := "",
              latest_version := "3.20.0" }) := by
  have hpoll : check_rpm_task_status (fun _ => appsvcs_resp) =
      .ok appsvcs_resp :=
    check_poll_const_finished appsvcs_resp rfl
  have hpoll2 : check_rpm_task_status (fun _ => finished_resp) =
      .ok finished_resp :=
    check_poll_const_finished finished_resp rfl
  have hfe : appsvcs_resp.queryResponse.filter (fun i =>
      pyIn "f5-appsvcs" i.packageName) =
      [{ packageName := "f5-appsvcs-3.18.0-4.noarch" }] := by decide
  have hver : get_version_number_from_package_name
      "f5-appsvcs-3.18.0-4.noarch" = .ok "3.18.0" := rfl
  have hne : (finished_resp.queryResponse.filter (fun i =>
      pyIn "f5-appsvcs" i.packageName)).length ≠ 1 := by decide
  exact ⟨⟨hpoll, hfe, hver⟩,
    (claim_c5 "f5-appsvcs" "3.20.0" _ appsvcs_resp hpoll).2 _ "3.18.0"
      hfe hver,
    hne, (claim_c5 "f5-appsvcs" "3.20.0" _ finished_resp hpoll2).1 hne⟩

/-- C6 (amended): the two `_upload_rpm` implementations are the same
function (identical request sequences and side effects for identical
inputs), and the two pollers make the same polls with the same outcome at
every poll count — but their return values on FINISHED differ: the legacy
poller returns only the `status` string of the response whose full payload
the current poller returns. -/
theorem claim_c6 :
    Legacy.upload_rpm = upload_rpm ∧
    (∀ polls : Nat → TaskResponse,
      Legacy.check_rpm_task_status polls =
        (check_rpm_task_status polls).map (fun r => r.status)) :=
  ⟨legacy_upload_rpm_eq, legacy_check_rpm_task_status_eq⟩

/-- C6 counterexample: on the same FINISHED poll sequence, the legacy
poller returns the string `FINISHED` while the current poller returns the
full response dictionary — as Python values they differ, refuting "their
`_check_rpm_task_status` methods return the same value on FINISHED". -/
theorem claim_c6_counterexample :
    (Legacy.check_rpm_task_status (fun _ => payload_resp)).map
        PyValue.str ≠
      (check_rpm_task_status (fun _ => payload_resp)).map PyValue.dict := by
  have h1 : check_rpm_task_status (fun _ => payload_resp) =
      .ok payload_resp :=
    check_poll_const_finished payload_resp rfl
  have h2 : Legacy.check_rpm_task_status (fun _ => payload_resp) =
      .ok "FINISHED" := by
    rw [legacy_check_rpm_task_status_eq, h1]
    rfl
  rw [h1, h2]
  intro hcon
  have hcon2 : Except.ok (ε := PyError) (PyValue.str "FINISHED") =
      Except.ok (PyValue.dict payload_resp) := hcon
  exact PyValue.noConfusion (Except.ok.inj hcon2)

/-- C8 (code bug): the version-extraction regex leaves its dots unescaped,
so `.` matches any character: on the package name `f5-test-1a2b3` the
extraction returns `1a2b3`, which contains no dot at all — not a string of
the form N.N.N. -/
theorem claim_c8 :
    get_version_number_from_package_name "f5-test-1a2b3" = .ok "1a2b3" ∧
      "1a2b3".data.contains '.' = false :=
  ⟨rfl, by decide⟩

/-- C9: when the client is constructed without the optional logger (the
`logger` default is `None`) and at least one dependent of the uninstalled
component has all of its constraints satisfied, `uninstall` raises
`AttributeError` from the warning call itself, after the UNINSTALL task
already completed (the poll hypothesis). -/
theorem claim_c9 :
    ∀ (compare_versions : String → String → String → Bool)
      (component version : String)
      (dependencies : List (String × DependencyInfo))
      (polls : Nat → TaskResponse) (r : TaskResponse),
      check_rpm_task_status polls = .ok r →
      (∃ nd ∈ dependencies,
        (nd.2.versions.filter (fun i =>
          compare_versions version i.version i.operation)).length =
          nd.2.versions.length) →
      uninstall none compare_versions component version dependencies polls =
        .error (.attributeError
          "NoneType object has no attribute warning") := by
  intro compare_versions component version dependencies polls r hpoll hex
  rw [uninstall_of_poll_ok none compare_versions component version
    dependencies polls r hpoll]
  rw [check_for_dependency_none compare_versions version dependencies hex]

/-- C9 witness: a concrete loggerless uninstall whose single dependent
fully matches raises `AttributeError` even though the UNINSTALL task
finished. -/
theorem claim_c9_witness :
    (check_rpm_task_status (fun _ => finished_resp) = .ok finished_resp ∧
      (∃ nd ∈ as3_dependencies,
        (nd.2.versions.filter (fun i =>
          accept_all_compare "3.18.0" i.version i.operation)).length =
          nd.2.versions.length)) ∧
    uninstall none accept_all_compare "as3" "3.18.0" as3_dependencies
        (fun _ => finished_resp) =
      .error (.attributeError
        "NoneType object has no attribute warning") := by
  have hpoll : check_rpm_task_status (fun _ => finished_resp) =
      .ok finished_resp :=
    check_poll_const_finished finished_resp rfl
  have hex : ∃ nd ∈ as3_dependencies,
      (nd.2.versions.filter (fun i =>
        accept_all_compare "3.18.0" i.version i.operation)).length =
        nd.2.versions.length := by
    refine ⟨_, List.mem_cons_self _ _, ?_⟩
    decide
  exact ⟨⟨hpoll, hex⟩,
    claim_c9 accept_all_compare "as3" "3.18.0" as3_dependencies
      (fun _ => finished_resp) finished_resp hpoll hex⟩

/-- C10: when the poll succeeds and exactly one query entry's package name
contains the component's package-name substring but that name contains no
substring matching the version pattern, `is_installed` raises
`AttributeError` (the `re.search` result is `None` and `.start()` is
called on it) instead of returning a not-installed result. -/
theorem claim_c10 :
    ∀ (component_package_name latest_version : String)
      (polls : Nat → TaskResponse) (r : TaskResponse) (p : PackageEntry),
      check_rpm_task_status polls = .ok r →
      r.queryResponse.filter (fun i =>
        pyIn component_package_name i.packageName) = [p] →
      searchVersion p.packageName.data = none →
      is_installed component_package_name latest_version polls =
        .error (.attributeError
          "NoneType object has no attribute start") := by
  intro component_package_name latest_version polls r p hpoll hfe hsearch
  have hex := check_rpm_exists_of_ok component_package_name polls r hpoll
  have herr : check_rpm_exists component_package_name polls =
      .error (.attributeError "NoneType object has no attribute start") := by
    rw [hex, hfe]
    show get_version_number_from_package_name p.packageName = _
    unfold get_version_number_from_package_name
    rw [hsearch]
  exact is_installed_of_error component_package_name latest_version polls
    _ herr

/-- C10 witness: a query whose single matching package name
`f5-noversion.rpm` has no version-shaped substring makes `is_installed`
raise `AttributeError`. -/
theorem claim_c10_witness :
    (check_rpm_task_status (fun _ => noversion_resp) = .ok noversion_resp ∧
      noversion_resp.queryResponse.filter (fun i =>
        pyIn "f5-noversion" i.packageName) =
        [{ packageName := "f5-noversion.rpm" }] ∧
      searchVersion ("f5-noversion.rpm" : String).data = none) ∧
    is_installed "f5-noversion" "1.2.3" (fun _ => noversion_resp) =
      .error (.attributeError
        "NoneType object has no attribute start") := by
  have hpoll : check_rpm_task_status (fun _ => noversion_resp) =
      .ok noversion_resp :=
    check_poll_const_finished noversion_resp rfl
  have hfe : noversion_resp.queryResponse.filter (fun i =>
      pyIn "f5-noversion" i.packageName) =
      [{ packageName := "f5-noversion.rpm" }] := by decide
  have hsearch : searchVersion ("f5-noversion.rpm" : String).data =
      none := by decide
  exact ⟨⟨hpoll, hfe, hsearch⟩,
    claim_c10 "f5-noversion" "1.2.3" _ noversion_resp
      { packageName := "f5-noversion.rpm" } hpoll hfe hsearch⟩
end F5
